import Mathlib

/-!
Verification of the Crust storage-migration script (src/script.js) against
its natural-language specification. The script is shallowly embedded: the
external collaborators (IPFS stat, the ledger transaction stream, the
checkpoint file append) are modelled as oracles supplied per run, and every
piece of control flow of the script itself (checkpoint load, CID filtering,
Map-based deduplication, the processing loop, the signAndSend callback) is
translated directly from the source.
-/

namespace CrustMigration

/-- A record of `allItems` in main: videos and clips are mapped to
objects with an id, an ipfs cid and a type tag ("Video" or "VideoClip"). -/
structure CatalogItem where
  id : Nat
  cid : String
  type : String
deriving DecidableEq, Repr

/-- State of the processed-CIDs log file as seen by `loadProcessedCids`:
absent, present but unreadable (readFileSync throws), or readable with the
given contents. -/
inductive FileState where
  | missing : FileState
  | unreadable : FileState
  | readable (contents : String) : FileState
deriving DecidableEq, Repr

/-- `loadProcessedCids` of script.js: a missing file and a read error both
produce the empty set (the catch block logs and falls through to
`return new Set()`); a readable file is split on newlines with blank lines
dropped. -/
def loadProcessedCids : FileState → List String
  | .missing => []
  | .unreadable => []
  | .readable contents =>
      (contents.splitOn "\n").filter (fun line => !(line.trim.isEmpty))

/-- One step of `new Map(validItems.map(item => [item.cid, item]))`:
JavaScript Map `set` keeps the position of the first insertion of a key but
overwrites its value, and appends unseen keys. -/
def mapInsert (acc : List CatalogItem) (it : CatalogItem) : List CatalogItem :=
  if it.cid ∈ acc.map (fun j => j.cid) then
    acc.map (fun j => if j.cid = it.cid then it else j)
  else
    acc ++ [it]

/-- `[...new Map(validItems.map(item => [item.cid, item])).values()]`
of script.js line 203: deduplication by cid with JavaScript Map semantics. -/
def dedupByCid (items : List CatalogItem) : List CatalogItem :=
  items.foldl mapInsert []

/-- The work-list pipeline of main (script.js lines 188-212): keep items
whose cid passes the validator (`isValidCID`, an external library call
modelled as the parameter `valid`), deduplicate by cid, then drop cids
already in the processed set. -/
def buildWorkList (valid : String → Bool) (processed : List String)
    (catalog : List CatalogItem) : List CatalogItem :=
  (dedupByCid (catalog.filter (fun it => valid it.cid))).filter
    (fun it => decide (it.cid ∉ processed))

/-- Decoded dispatch-error payload a chain event may carry (module, error
name, description). The script never reads it; it is modelled so that we
can state what is lost. -/
structure DispatchErrorInfo where
  moduleName : String
  errorName : String
  description : String
deriving DecidableEq, Repr

/-- A chain event as delivered in a status update: the script reads only
`event.method`; any dispatch-error payload rides along unread. -/
structure ChainEvent where
  method : String
  errInfo : Option DispatchErrorInfo
deriving DecidableEq, Repr

/-- Transaction status kinds of the polkadot api; the callback branches
only on `status.isInBlock`. -/
inductive TxStatus where
  | future | ready | broadcast | inBlock | retracted | finalized | dropped
deriving DecidableEq, Repr

/-- `status.isInBlock` of the polkadot api. -/
def TxStatus.isInBlock : TxStatus → Bool
  | .inBlock => true
  | _ => false

/-- One push of the signAndSend subscription: a status and the block events
delivered with it. -/
structure StreamUpdate where
  status : TxStatus
  events : List ChainEvent
deriving DecidableEq, Repr

/-- A settle attempt on the promise of `placeCrustOrder`: `resolve(true)`
or `reject(new Error(msg))`. -/
inductive Settle where
  | resolve (ok : Bool) : Settle
  | reject (msg : String) : Settle
deriving DecidableEq, Repr

/-- The settle attempts the signAndSend callback makes for one status
update (script.js lines 108-122): only on isInBlock does it scan the
events; ExtrinsicSuccess resolves true, ExtrinsicFailed rejects with the
fixed string "ExtrinsicFailed"; the dispatch-error payload is never read. -/
def settlesOfUpdate (u : StreamUpdate) : List Settle :=
  if u.status.isInBlock then
    u.events.filterMap (fun ev =>
      if ev.method = "ExtrinsicSuccess" then some (.resolve true)
      else if ev.method = "ExtrinsicFailed" then some (.reject "ExtrinsicFailed")
      else none)
  else []

/-- All settle attempts over a whole update stream: the callback is never
unsubscribed, so every pushed update is processed. -/
def streamSettles (updates : List StreamUpdate) : List Settle :=
  updates.flatMap settlesOfUpdate

/-- The per-update console.log of `status.type` (script.js line 106): one
entry per callback invocation, hence one per pushed update. -/
def statusLog (updates : List StreamUpdate) : List TxStatus :=
  updates.map (fun u => u.status)

/-- What the ledger client does with one submission: either a stream of
status updates, or the signAndSend call itself rejects (the .catch path). -/
inductive SendResult where
  | stream (updates : List StreamUpdate) : SendResult
  | sendError (msg : String) : SendResult
deriving DecidableEq, Repr

/-- The promise of `placeCrustOrder`: a transport error rejects via .catch;
otherwise the first settle attempt wins (a promise settles once); `none`
means the promise never settles and the await suspends forever. -/
def placeCrustOrder : SendResult → Option Settle
  | .sendError msg => some (.reject msg)
  | .stream updates => (streamSettles updates).head?

/-- Result of `await fs.stat(cid)` inside `getFileStats`: the call throws,
or yields an object with optional fileSize and cumulativeSize fields. -/
inductive StatOutcome where
  | err (msg : String) : StatOutcome
  | ok (fileSize : Option Nat) (cumulativeSize : Option Nat) : StatOutcome
deriving DecidableEq, Repr

/-- JavaScript `a || b` on an optional number: zero and absent are falsy. -/
def jsSizeOr (a : Option Nat) (b : Nat) : Nat :=
  match a with
  | some n => if n = 0 then b else n
  | none => b

/-- `getFileStats` of script.js lines 75-85: on success the size is
`stat.fileSize || stat.cumulativeSize || 0`; a throw is wrapped in a new
error message naming the cid. -/
def getFileStats (cid : String) : StatOutcome → Except String Nat
  | .err msg => .error ("Failed to get file stats for CID " ++ cid ++ ": " ++ msg)
  | .ok fileSize cumulativeSize => .ok (jsSizeOr fileSize (jsSizeOr cumulativeSize 0))

/-- The external collaborators of one run: the IPFS stat answer per cid,
the ledger behaviour per submission, and whether the appendFileSync of
`logProcessedCid` succeeds for a cid. -/
structure Oracle where
  stat : String → StatOutcome
  send : String → SendResult
  logOk : String → Bool

/-- Terminal result of processing one work item in the loop of main. -/
inductive ItemResult where
  | success : ItemResult
  | failure (msg : String) : ItemResult
  | stuck : ItemResult
deriving DecidableEq, Repr

/-- True exactly on `success`. -/
def ItemResult.isSuccess : ItemResult → Bool
  | .success => true
  | _ => false

/-- Outcome of one iteration of the processing loop: the size passed to
`placeCrustOrder` (`none` when no submission was made) and the result.
`stuck` records a promise that never settles: the await never returns. -/
structure ItemOutcome where
  sentSize : Option Nat
  result : ItemResult
deriving DecidableEq, Repr

/-- The body of the per-item try/catch in main (script.js lines 226-247):
resolve the size, throw on a falsy size, submit, and map a rejected
promise to the caught failure. -/
def processItem (o : Oracle) (cid : String) : ItemOutcome :=
  match getFileStats cid (o.stat cid) with
  | .error msg => ⟨none, .failure msg⟩
  | .ok fileSize =>
      if fileSize = 0 then
        ⟨none, .failure "Could not retrieve a valid file size from IPFS. Skipping."⟩
      else
        match placeCrustOrder (o.send cid) with
        | none => ⟨some fileSize, .stuck⟩
        | some (.resolve _) => ⟨some fileSize, .success⟩
        | some (.reject msg) => ⟨some fileSize, .failure msg⟩

/-- The `for (const item of itemsToProcess)` loop: each item is processed
in order; a caught failure continues with the next item; an await that
never returns halts the loop at that item. -/
def runLoop (o : Oracle) : List CatalogItem → List (String × ItemOutcome)
  | [] => []
  | it :: rest =>
      let out := processItem o it.cid
      if out.result = .stuck then [(it.cid, out)]
      else (it.cid, out) :: runLoop o rest

/-- The cids appended to the processed log during a run: exactly the
successful items whose appendFileSync succeeded, in completion order
(`logProcessedCid` is called only after a successful order). -/
def newCheckpoints (o : Oracle) (results : List (String × ItemOutcome)) : List String :=
  (results.filter (fun r => r.2.result.isSuccess && o.logOk r.1)).map (fun r => r.1)

/-- Observable outcome of one orchestration run. -/
structure RunResult where
  workList : List CatalogItem
  itemResults : List (String × ItemOutcome)
  checkpointsAfter : List String
deriving DecidableEq, Repr

/-- The cids for which `placeCrustOrder` was actually invoked this run. -/
def RunResult.submissions (r : RunResult) : List String :=
  (r.itemResults.filter (fun p => p.2.sentSize.isSome)).map (fun p => p.1)

/-- One orchestration run after startup: build the work list from the
catalog and the processed set, run the loop, and append the new
checkpoints to the store. -/
def runMigration (valid : String → Bool) (o : Oracle) (processed : List String)
    (catalog : List CatalogItem) : RunResult :=
  let wl := buildWorkList valid processed catalog
  let res := runLoop o wl
  ⟨wl, res, processed ++ newCheckpoints o res⟩

/-- The environment variables read at line 18 of script.js; absent and
present-but-empty are both falsy in the startup check. -/
structure Env where
  crustSeeds : Option String
  crustChainEndpoint : Option String
  ipfsGatewayUrl : Option String
deriving DecidableEq, Repr

/-- Truthiness of an environment variable in `!CRUST_SEEDS` style checks. -/
def envPresent : Option String → Bool
  | none => false
  | some s => !s.isEmpty

/-- The startup configuration check of main (script.js lines 138-142). -/
def configOk (e : Env) : Bool :=
  envPresent e.crustSeeds && envPresent e.crustChainEndpoint && envPresent e.ipfsGatewayUrl

/-- The WebSocket URL handed to WsProvider at script.js line 149, a string
literal in the source. -/
def hardcodedCrustEndpoint : String :=
  "wss://api-crust-mainnet.n.dwellir.com/1791deb9-183c-4d92-9c70-a9fba633bee4"

/-- Everything observable about a completed main run: which ledger
endpoint was connected to, which IPFS gateways were configured, which seed
signed, and the orchestration outcome. -/
structure MainResult where
  chainEndpointUsed : String
  gatewaysUsed : List String
  signerSeed : String
  run : RunResult
deriving DecidableEq, Repr

/-- `main` of script.js up to its observable effects: the config check
throws first; then the processed set is loaded, the api is built on the
hardcoded endpoint, helia on the gateway from the environment, and the
run proceeds. -/
def mainRun (e : Env) (fsState : FileState) (valid : String → Bool) (o : Oracle)
    (catalog : List CatalogItem) : Except String MainResult :=
  if configOk e then
    .ok { chainEndpointUsed := hardcodedCrustEndpoint
          gatewaysUsed := [e.ipfsGatewayUrl.getD ""]
          signerSeed := e.crustSeeds.getD ""
          run := runMigration valid o (loadProcessedCids fsState) catalog }
  else
    .error "Please define CRUST_SEEDS, CRUST_CHAIN_ENDPOINT, and IPFS_GATEWAY_URL in your .env file."

/-! Concrete fixtures used by witnesses and counterexamples. -/

/-- A validator accepting every cid (all fixture cids are valid). -/
def validAll : String → Bool := fun _ => true

/-- A status update carrying an ExtrinsicSuccess event inside a block. -/
def succUpdate : StreamUpdate := ⟨.inBlock, [⟨"ExtrinsicSuccess", none⟩]⟩

/-- A status update carrying an ExtrinsicFailed event inside a block. -/
def failUpdate : StreamUpdate := ⟨.inBlock, [⟨"ExtrinsicFailed", none⟩]⟩

/-- A stream that keeps pushing after the terminal success update. -/
def postTerminalStream : List StreamUpdate := [⟨.broadcast, []⟩, succUpdate, succUpdate]

/-- An oracle on which every item succeeds: stat resolves size 5, the
ledger stream reports in-block success, log appends succeed. -/
def oGood : Oracle :=
  ⟨fun _ => .ok (some 5) none, fun _ => .stream [succUpdate], fun _ => true⟩

/-- An oracle whose transport fails for cid Y only. -/
def oMidFail : Oracle :=
  ⟨fun _ => .ok (some 4) none,
   fun c => if c = "Y" then .sendError "WebSocket disconnected" else .stream [succUpdate],
   fun _ => true⟩

/-- An oracle whose stat reports a zero file size. -/
def oZero : Oracle :=
  ⟨fun _ => .ok (some 0) none, fun _ => .stream [succUpdate], fun _ => true⟩

/-- A fully populated environment. -/
def envAll : Env := ⟨some "seed-phrase", some "wss://configured-endpoint", some "https://gw.example"⟩

/-- The same environment with a different (still non-empty) chain endpoint. -/
def envAlt : Env := ⟨some "seed-phrase", some "wss://other-endpoint", some "https://gw.example"⟩

/-- A one-item catalog. -/
def catalogA : List CatalogItem := [⟨1, "A", "Video"⟩]

/-- A three-item catalog with distinct cids X, Y, Z. -/
def catalogXYZ : List CatalogItem := [⟨1, "X", "Video"⟩, ⟨2, "Y", "Video"⟩, ⟨3, "Z", "VideoClip"⟩]

/-- A three-item catalog with distinct cids A, B, C. -/
def catalogABC : List CatalogItem := [⟨1, "A", "Video"⟩, ⟨2, "B", "Video"⟩, ⟨3, "C", "Video"⟩]

/-- Two catalog records sharing one contentAddress. -/
def dupPair : List CatalogItem := [⟨1, "bafyX", "Video"⟩, ⟨2, "bafyX", "VideoClip"⟩]

/-! Helper lemmas on the Map-based deduplication. -/

theorem keys_mapInsert (acc : List CatalogItem) (it : CatalogItem) :
    (mapInsert acc it).map (fun j => j.cid) =
      if it.cid ∈ acc.map (fun j => j.cid) then acc.map (fun j => j.cid)
      else acc.map (fun j => j.cid) ++ [it.cid] := by
  unfold mapInsert
  by_cases h : it.cid ∈ acc.map (fun j => j.cid)
  · rw [if_pos h, if_pos h, List.map_map]
    apply List.map_congr_left
    intro j _
    by_cases hj : j.cid = it.cid
    · simp [Function.comp, hj]
    · simp [Function.comp, hj]
  · rw [if_neg h, if_neg h]
    simp

theorem nodup_keys_foldl (l : List CatalogItem) :
    ∀ acc : List CatalogItem, (acc.map (fun j => j.cid)).Nodup →
      ((l.foldl mapInsert acc).map (fun j => j.cid)).Nodup := by
  induction l with
  | nil => intro acc h; simpa using h
  | cons it rest ih =>
      intro acc h
      simp only [List.foldl_cons]
      apply ih
      rw [keys_mapInsert]
      by_cases hmem : it.cid ∈ acc.map (fun j => j.cid)
      · rw [if_pos hmem]; exact h
      · rw [if_neg hmem]
        exact List.nodup_append.mpr ⟨h, List.nodup_singleton _,
          fun a ha hb => hmem (by rwa [List.mem_singleton.mp hb] at ha)⟩

theorem nodup_keys_dedupByCid (l : List CatalogItem) :
    ((dedupByCid l).map (fun j => j.cid)).Nodup :=
  nodup_keys_foldl l [] (by simp)

theorem foldl_mapInsert_of_nodup (l : List CatalogItem) :
    ∀ acc : List CatalogItem, (((acc ++ l).map (fun j => j.cid)).Nodup) →
      l.foldl mapInsert acc = acc ++ l := by
  induction l with
  | nil => intro acc _; simp
  | cons it rest ih =>
      intro acc h
      rw [List.map_append] at h
      have h' := List.nodup_append.mp h
      have hnot : it.cid ∉ acc.map (fun j => j.cid) :=
        fun hmem => h'.2.2 hmem (by simp)
      have hstep : mapInsert acc it = acc ++ [it] := by
        unfold mapInsert; rw [if_neg hnot]
      rw [List.foldl_cons, hstep, ih (acc ++ [it])
        (by rw [List.append_assoc, List.singleton_append, List.map_append]; exact h),
        List.append_assoc, List.singleton_append]

theorem dedupByCid_eq_self (l : List CatalogItem)
    (h : (l.map (fun j => j.cid)).Nodup) : dedupByCid l = l := by
  unfold dedupByCid
  rw [foldl_mapInsert_of_nodup l [] (by simpa using h), List.nil_append]

theorem find?_map_replace_ne (acc : List CatalogItem) (it : CatalogItem) (c : String)
    (hc : c ≠ it.cid) :
    (acc.map (fun j => if j.cid = it.cid then it else j)).find? (fun j => j.cid == c)
      = acc.find? (fun j => j.cid == c) := by
  induction acc with
  | nil => rfl
  | cons j rest ih =>
      by_cases hj : j.cid = it.cid
      · have e1 : (it :: rest.map (fun k => if k.cid = it.cid then it else k)).find?
            (fun k => k.cid == c)
            = (rest.map (fun k => if k.cid = it.cid then it else k)).find?
              (fun k => k.cid == c) :=
          List.find?_cons_of_neg _ (by simp only [beq_iff_eq]; exact fun h => hc h.symm)
        have e2 : ((j :: rest).find? fun k => k.cid == c) = rest.find? (fun k => k.cid == c) :=
          List.find?_cons_of_neg _
            (by simp only [beq_iff_eq]; rw [hj]; exact fun h => hc h.symm)
        rw [List.map_cons, if_pos hj, e1, e2, ih]
      · by_cases hp : (j.cid == c) = true
        · have e1 : (j :: rest.map (fun k => if k.cid = it.cid then it else k)).find?
              (fun k => k.cid == c) = some j :=
            List.find?_cons_of_pos _ hp
          have e2 : ((j :: rest).find? fun k => k.cid == c) = some j :=
            List.find?_cons_of_pos _ hp
          rw [List.map_cons, if_neg hj, e1, e2]
        · have e1 : (j :: rest.map (fun k => if k.cid = it.cid then it else k)).find?
              (fun k => k.cid == c)
              = (rest.map (fun k => if k.cid = it.cid then it else k)).find?
                (fun k => k.cid == c) :=
            List.find?_cons_of_neg _ hp
          have e2 : ((j :: rest).find? fun k => k.cid == c) = rest.find? (fun k => k.cid == c) :=
            List.find?_cons_of_neg _ hp
          rw [List.map_cons, if_neg hj, e1, e2, ih]

theorem find?_map_replace_eq (acc : List CatalogItem) (it : CatalogItem)
    (hmem : it.cid ∈ acc.map (fun j => j.cid)) :
    (acc.map (fun j => if j.cid = it.cid then it else j)).find? (fun j => j.cid == it.cid)
      = some it := by
  induction acc with
  | nil => simp at hmem
  | cons j rest ih =>
      by_cases hj : j.cid = it.cid
      · have e1 : (it :: rest.map (fun k => if k.cid = it.cid then it else k)).find?
            (fun k => k.cid == it.cid) = some it :=
          List.find?_cons_of_pos _ (by simp)
        rw [List.map_cons, if_pos hj, e1]
      · have hrest : it.cid ∈ rest.map (fun k => k.cid) := by
          rcases List.mem_map.mp hmem with ⟨k, hk, hkc⟩
          rcases List.mem_cons.mp hk with h1 | h2
          · exact absurd (h1 ▸ hkc) hj
          · exact List.mem_map.mpr ⟨k, h2, hkc⟩
        have e1 : (j :: rest.map (fun k => if k.cid = it.cid then it else k)).find?
            (fun k => k.cid == it.cid)
            = (rest.map (fun k => if k.cid = it.cid then it else k)).find?
              (fun k => k.cid == it.cid) :=
          List.find?_cons_of_neg _ (by simp only [beq_iff_eq]; exact hj)
        rw [List.map_cons, if_neg hj, e1, ih hrest]

theorem find?_mapInsert (acc : List CatalogItem) (it : CatalogItem) (c : String) :
    (mapInsert acc it).find? (fun j => j.cid == c) =
      if c = it.cid then some it else acc.find? (fun j => j.cid == c) := by
  unfold mapInsert
  by_cases hmem : it.cid ∈ acc.map (fun j => j.cid)
  · rw [if_pos hmem]
    by_cases hc : c = it.cid
    · rw [if_pos hc, hc, find?_map_replace_eq acc it hmem]
    · rw [if_neg hc, find?_map_replace_ne acc it c hc]
  · rw [if_neg hmem]
    by_cases hc : c = it.cid
    · have hacc : acc.find? (fun j => j.cid == c) = none := by
        rw [List.find?_eq_none]
        intro j hj
        simp only [beq_iff_eq]
        exact fun hcj => hmem (hc ▸ List.mem_map.mpr ⟨j, hj, hcj⟩)
      have hone : ([it].find? fun j => j.cid == c) = some it :=
        List.find?_cons_of_pos _ (by simp [hc])
      rw [if_pos hc, List.find?_append, hacc, Option.none_or, hone]
    · have hone : ([it].find? fun j => j.cid == c) = none := by
        rw [List.find?_eq_none]
        intro j hj
        rw [List.mem_singleton.mp hj]
        simp only [beq_iff_eq]
        exact fun h => hc h.symm
      rw [if_neg hc, List.find?_append, hone, Option.or_none]

theorem find?_foldl_mapInsert (l : List CatalogItem) :
    ∀ (acc : List CatalogItem) (c : String),
      (l.foldl mapInsert acc).find? (fun j => j.cid == c) =
        (l.reverse.find? (fun j => j.cid == c)).or (acc.find? (fun j => j.cid == c)) := by
  induction l with
  | nil => intro acc c; simp
  | cons it rest ih =>
      intro acc c
      rw [List.foldl_cons, ih (mapInsert acc it) c, find?_mapInsert,
        List.reverse_cons, List.find?_append, Option.or_assoc]
      by_cases hc : c = it.cid
      · have hone : ([it].find? fun j => j.cid == c) = some it :=
          List.find?_cons_of_pos _ (by simp [hc])
        rw [if_pos hc, hone, Option.or_some]
      · have hone : ([it].find? fun j => j.cid == c) = none := by
          rw [List.find?_eq_none]
          intro j hj
          rw [List.mem_singleton.mp hj]
          simp only [beq_iff_eq]
          exact fun h => hc h.symm
        rw [if_neg hc, hone, Option.none_or]

theorem find?_dedupByCid (l : List CatalogItem) (c : String) :
    (dedupByCid l).find? (fun j => j.cid == c) = l.reverse.find? (fun j => j.cid == c) := by
  unfold dedupByCid
  rw [find?_foldl_mapInsert l [] c, List.find?_nil, Option.or_none]

theorem find?_self_of_nodup_keys (l : List CatalogItem) (it : CatalogItem)
    (h : it ∈ l) (hn : (l.map (fun j => j.cid)).Nodup) :
    l.find? (fun j => j.cid == it.cid) = some it := by
  induction l with
  | nil => simp at h
  | cons j rest ih =>
      rcases List.mem_cons.mp h with h1 | h2
      · have e1 : ((j :: rest).find? fun k => k.cid == it.cid) = some j :=
          List.find?_cons_of_pos _ (by simp [h1])
        rw [e1, h1]
      · have hn' := hn
        rw [List.map_cons, List.nodup_cons] at hn'
        have hj : ¬((j.cid == it.cid) = true) := by
          simp only [beq_iff_eq]
          exact fun hcid => hn'.1 (hcid ▸ List.mem_map.mpr ⟨it, h2, rfl⟩)
        have e1 : ((j :: rest).find? fun k => k.cid == it.cid)
            = rest.find? (fun k => k.cid == it.cid) :=
          List.find?_cons_of_neg _ hj
        rw [e1, ih h2 hn'.2]

/-! Claim theorems about deduplication and ordering. -/

/-- C7: for every catalog input, every validator and every processed set,
the built work list contains each distinct contentAddress at most once
(its list of cids has no duplicates). -/
theorem worklist_cids_nodup (valid : String → Bool) (processed : List String)
    (catalog : List CatalogItem) :
    ((buildWorkList valid processed catalog).map (fun it => it.cid)).Nodup := by
  unfold buildWorkList
  exact List.Nodup.sublist
    (List.Sublist.map _ (List.filter_sublist _))
    (nodup_keys_dedupByCid (catalog.filter (fun it => valid it.cid)))

/-- C8: for a catalog whose valid records carry distinct contentAddresses,
the work list is exactly the valid records minus the checkpointed ones, in
the original discovery order; removing a checkpointed mid-list address
keeps the relative order of the rest. -/
theorem worklist_order_preserved (valid : String → Bool) (processed : List String)
    (catalog : List CatalogItem)
    (h : ((catalog.filter (fun it => valid it.cid)).map (fun it => it.cid)).Nodup) :
    buildWorkList valid processed catalog =
      (catalog.filter (fun it => valid it.cid)).filter
        (fun it => decide (it.cid ∉ processed)) := by
  unfold buildWorkList
  rw [dedupByCid_eq_self _ h]

/-- Witness for C8: catalog [A, B, C] with distinct addresses and B already
checkpointed yields the work list [A, C] in order. -/
theorem worklist_order_preserved_witness :
    ((catalogABC.filter (fun it => validAll it.cid)).map (fun it => it.cid)).Nodup
    ∧ buildWorkList validAll ["B"] catalogABC = [⟨1, "A", "Video"⟩, ⟨3, "C", "Video"⟩] :=
  ⟨by decide, (worklist_order_preserved validAll ["B"] catalogABC (by decide)).trans (by decide)⟩

/-- C9 counterexample: two catalog records sharing a contentAddress are
deduplicated to the LAST-seen record, not the first-seen one: the Map
constructor overwrites the value on a repeated key. -/
theorem dedup_first_seen_cex :
    dedupByCid dupPair = [⟨2, "bafyX", "VideoClip"⟩]
    ∧ dedupByCid dupPair ≠ [⟨1, "bafyX", "Video"⟩] := by
  constructor
  · decide
  · decide

/-- C9 amended: when several catalog records share a contentAddress, the
record retained in the deduplicated list is the last-seen one (kept at the
first-seen position): every retained entry equals the last catalog record
with its cid. -/
theorem dedup_retains_last_seen (catalog : List CatalogItem) (it : CatalogItem)
    (h : it ∈ dedupByCid catalog) :
    catalog.reverse.find? (fun j => j.cid == it.cid) = some it := by
  rw [← find?_dedupByCid]
  exact find?_self_of_nodup_keys _ it h (nodup_keys_dedupByCid catalog)

/-- Witness for the amended C9: on the two-record catalog sharing cid
bafyX, the retained entry is the last-seen record. -/
theorem dedup_retains_last_seen_witness :
    (⟨2, "bafyX", "VideoClip"⟩ : CatalogItem) ∈ dedupByCid dupPair
    ∧ dupPair.reverse.find? (fun j => j.cid == "bafyX") = some ⟨2, "bafyX", "VideoClip"⟩ :=
  ⟨by decide, dedup_retains_last_seen dupPair ⟨2, "bafyX", "VideoClip"⟩ (by decide)⟩

/-! Confirmation state machine: stream processing lemmas and claims. -/

theorem streamSettles_append (a b : List StreamUpdate) :
    streamSettles (a ++ b) = streamSettles a ++ streamSettles b := by
  simp [streamSettles]

/-- C3 counterexample: after the terminal InBlock success the callback is
not detached: a further pushed update is still processed — it is logged and
produces a second settle attempt — and only promise semantics collapse the
run to a single Success outcome. -/
theorem post_terminal_events_processed_cex :
    statusLog postTerminalStream = [.broadcast, .inBlock, .inBlock]
    ∧ streamSettles postTerminalStream = [.resolve true, .resolve true]
    ∧ placeCrustOrder (.stream postTerminalStream) = some (.resolve true) := by
  refine ⟨by decide, by decide, by decide⟩

/-- C3 amended: the promise of a submission yields exactly one outcome —
the first settle attempt of the stream wins and no later pushed update can
change it — but the state machine does not detach: every subsequent update
is still processed (each is logged, and extra settle attempts are simply
ignored by the already-settled promise). -/
theorem first_settle_wins (pre rest : List StreamUpdate) (s : Settle)
    (h : (streamSettles pre).head? = some s) :
    placeCrustOrder (.stream (pre ++ rest)) = some s
    ∧ statusLog (pre ++ rest) = statusLog pre ++ statusLog rest := by
  constructor
  · show (streamSettles (pre ++ rest)).head? = some s
    rw [streamSettles_append, List.head?_append, h]
    exact rfl
  · simp [statusLog]

/-- Witness for the amended C3: the stream [Broadcast, InBlock(success)]
settles to Success and a later pushed failure update cannot change it. -/
theorem first_settle_wins_witness :
    (streamSettles [⟨.broadcast, []⟩, succUpdate]).head? = some (.resolve true)
    ∧ (placeCrustOrder (.stream ([⟨.broadcast, []⟩, succUpdate] ++ [failUpdate]))
          = some (.resolve true)
      ∧ statusLog ([⟨.broadcast, []⟩, succUpdate] ++ [failUpdate])
          = statusLog [⟨.broadcast, []⟩, succUpdate] ++ statusLog [failUpdate]) :=
  ⟨by decide,
    first_settle_wins [⟨.broadcast, []⟩, succUpdate] [failUpdate] (.resolve true) (by decide)⟩

/-- C4: when an InBlock status carries an ExtrinsicFailed event with a
decoded dispatch-error payload, the submission outcome is the fixed generic
rejection "ExtrinsicFailed" for every payload: the module, error name and
description carried by the event never reach the outcome. -/
theorem dispatch_error_reason_dropped (info : DispatchErrorInfo) :
    placeCrustOrder (.stream [⟨.inBlock, [⟨"ExtrinsicFailed", some info⟩]⟩])
      = some (.reject "ExtrinsicFailed") := rfl

/-! Orchestration loop lemmas and claims. -/

theorem runLoop_cons (o : Oracle) (it : CatalogItem) (rest : List CatalogItem) :
    runLoop o (it :: rest) =
      if (processItem o it.cid).result = .stuck then [(it.cid, processItem o it.cid)]
      else (it.cid, processItem o it.cid) :: runLoop o rest := rfl

theorem runLoop_map_fst (o : Oracle) (items : List CatalogItem)
    (hterm : ∀ it ∈ items, (processItem o it.cid).result ≠ .stuck) :
    runLoop o items = items.map (fun it => (it.cid, processItem o it.cid)) := by
  induction items with
  | nil => rfl
  | cons it rest ih =>
      rw [runLoop_cons, if_neg (hterm it (List.mem_cons_self it rest)), List.map_cons,
        ih (fun j hj => hterm j (List.mem_cons_of_mem it hj))]

theorem newCheckpoints_cons (o : Oracle) (r : String × ItemOutcome)
    (rs : List (String × ItemOutcome)) :
    newCheckpoints o (r :: rs) =
      if (r.2.result.isSuccess && o.logOk r.1) = true then r.1 :: newCheckpoints o rs
      else newCheckpoints o rs := by
  unfold newCheckpoints
  rw [List.filter_cons]
  by_cases h : (r.2.result.isSuccess && o.logOk r.1) = true
  · rw [if_pos h, if_pos h, List.map_cons]
  · rw [if_neg h, if_neg h]

theorem checkpoints_exactly_successes (o : Oracle) (items : List CatalogItem)
    (hterm : ∀ it ∈ items, (processItem o it.cid).result ≠ .stuck)
    (hlog : ∀ c, o.logOk c = true) :
    newCheckpoints o (runLoop o items)
      = (items.filter (fun it => (processItem o it.cid).result.isSuccess)).map
          (fun it => it.cid) := by
  induction items with
  | nil => rfl
  | cons it rest ih =>
      have hstep : runLoop o (it :: rest) = (it.cid, processItem o it.cid) :: runLoop o rest := by
        rw [runLoop_cons, if_neg (hterm it (List.mem_cons_self it rest))]
      rw [hstep, newCheckpoints_cons, List.filter_cons]
      by_cases hs : (processItem o it.cid).result.isSuccess = true
      · rw [if_pos (by rw [hs, hlog]; rfl), if_pos hs, List.map_cons,
          ih (fun j hj => hterm j (List.mem_cons_of_mem it hj))]
      · rw [if_neg (by rw [Bool.and_eq_true]; exact fun hand => hs hand.1), if_neg hs,
          ih (fun j hj => hterm j (List.mem_cons_of_mem it hj))]

/-- C5: one item failing (size resolution, transport, or on-chain
rejection) never aborts the run: every work item is still processed in
order, and the checkpointed cids are exactly those of the items that
succeeded — failed items are not checkpointed. The hypotheses say that
every submission reaches a settled outcome and every checkpoint append
succeeds. -/
theorem failure_isolation (o : Oracle) (items : List CatalogItem)
    (hterm : ∀ it ∈ items, (processItem o it.cid).result ≠ .stuck)
    (hlog : ∀ c, o.logOk c = true) :
    (runLoop o items).map (fun r => r.1) = items.map (fun it => it.cid)
    ∧ newCheckpoints o (runLoop o items)
        = (items.filter (fun it => (processItem o it.cid).result.isSuccess)).map
            (fun it => it.cid) := by
  constructor
  · rw [runLoop_map_fst o items hterm, List.map_map]
    rfl
  · exact checkpoints_exactly_successes o items hterm hlog

/-- Witness for C5: work list [X, Y, Z] where the submission of Y fails
with a transport error: all three items are processed and exactly X and Z
are checkpointed. -/
theorem failure_isolation_witness :
    (∀ it ∈ catalogXYZ, (processItem oMidFail it.cid).result ≠ .stuck)
    ∧ ((runLoop oMidFail catalogXYZ).map (fun r => r.1)
          = catalogXYZ.map (fun it => it.cid)
      ∧ newCheckpoints oMidFail (runLoop oMidFail catalogXYZ)
          = (catalogXYZ.filter
              (fun it => (processItem oMidFail it.cid).result.isSuccess)).map
              (fun it => it.cid)) :=
  ⟨by decide, failure_isolation oMidFail catalogXYZ (by decide) (fun c => rfl)⟩

/-- C6: a content address whose size resolution yields 0 (also when no
size field is present) fails with the size-unavailable error and is never
submitted; more generally, a size of 0 is never passed to
`placeCrustOrder` for any oracle. -/
theorem zero_size_rejection (o : Oracle) (cid : String) :
    (getFileStats cid (o.stat cid) = Except.ok 0 →
      (processItem o cid).sentSize = none
      ∧ (processItem o cid).result
          = .failure "Could not retrieve a valid file size from IPFS. Skipping.")
    ∧ (processItem o cid).sentSize ≠ some 0 := by
  constructor
  · intro h
    unfold processItem
    rw [h]
    exact ⟨rfl, rfl⟩
  · unfold processItem
    cases hstat : getFileStats cid (o.stat cid) with
    | error msg => simp
    | ok k =>
        dsimp only
        by_cases hk : k = 0
        · rw [if_pos hk]; simp
        · rw [if_neg hk]
          cases placeCrustOrder (o.send cid) with
          | none => simpa using hk
          | some s =>
              cases s with
              | resolve b => simpa using hk
              | reject m => simpa using hk

/-- Witness for C6: an oracle whose stat reports fileSize 0. -/
theorem zero_size_rejection_witness :
    getFileStats "A" (oZero.stat "A") = Except.ok 0
    ∧ ((processItem oZero "A").sentSize = none
      ∧ (processItem oZero "A").result
          = .failure "Could not retrieve a valid file size from IPFS. Skipping.") :=
  ⟨rfl, (zero_size_rejection oZero "A").1 rfl⟩

theorem all_success_no_stuck (o : Oracle) (l : List CatalogItem)
    (hs : ∀ r ∈ runLoop o l, r.2.result = ItemResult.success) :
    ∀ it ∈ l, (processItem o it.cid).result ≠ .stuck := by
  induction l with
  | nil => simp
  | cons it rest ih =>
      intro j hj
      by_cases hstuck : (processItem o it.cid).result = .stuck
      · exfalso
        have hmem : (it.cid, processItem o it.cid) ∈ runLoop o (it :: rest) := by
          rw [runLoop_cons, if_pos hstuck]
          exact List.mem_cons_self _ _
        have := hs _ hmem
        rw [hstuck] at this
        simp at this
      · have hrest : ∀ r ∈ runLoop o rest, r.2.result = ItemResult.success := by
          intro r hr
          apply hs
          rw [runLoop_cons, if_neg hstuck]
          exact List.mem_cons_of_mem _ hr
        rcases List.mem_cons.mp hj with h1 | h2
        · rw [h1]; exact hstuck
        · exact ih hrest j h2

theorem checkpointed_filtered_out (valid : String → Bool) (processed : List String)
    (catalog : List CatalogItem) (c : String) (hc : c ∈ processed) :
    c ∉ (buildWorkList valid processed catalog).map (fun it => it.cid) := by
  intro hmem
  rcases List.mem_map.mp hmem with ⟨it, hit, rfl⟩
  unfold buildWorkList at hit
  rcases List.mem_filter.mp hit with ⟨_, hdec⟩
  exact (of_decide_eq_true hdec) hc

/-- C1: after a completed first run in which every work item succeeded
(and every checkpoint append succeeded), every checkpointed contentAddress
is filtered out of the second work list; with the catalog unchanged the
second run has an empty work list and performs zero storage-order
submissions, whatever the collaborators do on the second run. -/
theorem idempotent_second_run (valid : String → Bool) (o1 o2 : Oracle)
    (store : List String) (catalog : List CatalogItem)
    (hsucc : ∀ r ∈ (runMigration valid o1 store catalog).itemResults,
      r.2.result = ItemResult.success)
    (hlog : ∀ c, o1.logOk c = true) :
    (∀ c ∈ (runMigration valid o1 store catalog).checkpointsAfter,
      c ∉ (buildWorkList valid (runMigration valid o1 store catalog).checkpointsAfter
            catalog).map (fun it => it.cid))
    ∧ (runMigration valid o2 (runMigration valid o1 store catalog).checkpointsAfter
        catalog).workList = []
    ∧ (runMigration valid o2 (runMigration valid o1 store catalog).checkpointsAfter
        catalog).submissions = [] := by
  have hterm : ∀ it ∈ buildWorkList valid store catalog,
      (processItem o1 it.cid).result ≠ .stuck :=
    all_success_no_stuck o1 (buildWorkList valid store catalog) hsucc
  have hallsucc : ∀ it ∈ buildWorkList valid store catalog,
      (processItem o1 it.cid).result = ItemResult.success := by
    intro it hit
    have hmem : (it.cid, processItem o1 it.cid) ∈
        runLoop o1 (buildWorkList valid store catalog) := by
      rw [runLoop_map_fst o1 _ hterm]
      exact List.mem_map.mpr ⟨it, hit, rfl⟩
    exact hsucc _ hmem
  have hfilter : (buildWorkList valid store catalog).filter
      (fun it => (processItem o1 it.cid).result.isSuccess)
      = buildWorkList valid store catalog :=
    List.filter_eq_self.mpr (fun it hit => by rw [hallsucc it hit]; rfl)
  have hcps : (runMigration valid o1 store catalog).checkpointsAfter
      = store ++ (buildWorkList valid store catalog).map (fun it => it.cid) := by
    show store ++ newCheckpoints o1 (runLoop o1 (buildWorkList valid store catalog))
      = store ++ (buildWorkList valid store catalog).map (fun it => it.cid)
    rw [checkpoints_exactly_successes o1 _ hterm hlog, hfilter]
  have hempty : buildWorkList valid
      (runMigration valid o1 store catalog).checkpointsAfter catalog = [] := by
    unfold buildWorkList
    rw [List.filter_eq_nil_iff]
    intro it hit
    simp only [decide_eq_true_eq, not_not]
    rw [hcps]
    by_cases hstore : it.cid ∈ store
    · exact List.mem_append.mpr (Or.inl hstore)
    · refine List.mem_append.mpr (Or.inr ?_)
      refine List.mem_map.mpr ⟨it, ?_, rfl⟩
      unfold buildWorkList
      exact List.mem_filter.mpr ⟨hit, by simpa using hstore⟩
  refine ⟨?_, hempty, ?_⟩
  · intro c hc
    exact checkpointed_filtered_out valid _ catalog c hc
  · show ((runLoop o2 (buildWorkList valid
        (runMigration valid o1 store catalog).checkpointsAfter catalog)).filter
        (fun p => p.2.sentSize.isSome)).map (fun p => p.1) = []
    rw [hempty]
    rfl

/-- Witness for C1: a one-item catalog fully migrated by the first run;
the second run has nothing to do. -/
theorem idempotent_second_run_witness :
    (∀ r ∈ (runMigration validAll oGood [] catalogA).itemResults,
      r.2.result = ItemResult.success)
    ∧ ((runMigration validAll oGood
          (runMigration validAll oGood [] catalogA).checkpointsAfter catalogA).workList = []
      ∧ (runMigration validAll oGood
          (runMigration validAll oGood [] catalogA).checkpointsAfter
          catalogA).submissions = []) :=
  ⟨by decide,
    (idempotent_second_run validAll oGood oGood [] catalogA (by decide) (fun c => rfl)).2⟩

/-! Startup behaviour: checkpoint-store load and configuration. -/

/-- C2 counterexample: with a present-but-unreadable store the run is not
aborted — startup completes, the store is treated as empty, and the single
catalog item is processed and submitted. -/
theorem unreadable_store_not_fatal_cex :
    loadProcessedCids .unreadable = []
    ∧ mainRun envAll .unreadable validAll oGood catalogA
        = .ok ⟨hardcodedCrustEndpoint, ["https://gw.example"], "seed-phrase",
            ⟨catalogA, [("A", ⟨some 5, .success⟩)], ["A"]⟩⟩ :=
  ⟨rfl, rfl⟩

/-- C2 amended: a missing store file loads as the empty completed set, and
a present-but-unreadable store is ALSO treated as the empty set (the error
is only logged): the run proceeds from scratch instead of aborting. -/
theorem store_load_not_fatal (e : Env) (valid : String → Bool) (o : Oracle)
    (catalog : List CatalogItem) (he : configOk e = true) :
    loadProcessedCids .missing = []
    ∧ loadProcessedCids .unreadable = []
    ∧ mainRun e .unreadable valid o catalog
        = .ok ⟨hardcodedCrustEndpoint, [e.ipfsGatewayUrl.getD ""], e.crustSeeds.getD "",
            runMigration valid o [] catalog⟩ := by
  refine ⟨rfl, rfl, ?_⟩
  unfold mainRun
  rw [if_pos he]
  rfl

/-- Witness for the amended C2. -/
theorem store_load_not_fatal_witness :
    configOk envAll = true
    ∧ (loadProcessedCids .missing = []
      ∧ loadProcessedCids .unreadable = []
      ∧ mainRun envAll .unreadable validAll oGood catalogA
          = .ok ⟨hardcodedCrustEndpoint, [envAll.ipfsGatewayUrl.getD ""],
              envAll.crustSeeds.getD "", runMigration validAll oGood [] catalogA⟩) :=
  ⟨by decide, store_load_not_fatal envAll validAll oGood catalogA (by decide)⟩

/-- C10: the startup check validates CRUST_CHAIN_ENDPOINT for presence,
but the ledger connection uses the hardcoded WebSocket URL: two runs whose
environments differ only in a non-empty CRUST_CHAIN_ENDPOINT behave
identically and connect to the same endpoint. -/
theorem chain_endpoint_unused (e1 e2 : Env) (fsState : FileState)
    (valid : String → Bool) (o : Oracle) (catalog : List CatalogItem)
    (hseeds : e1.crustSeeds = e2.crustSeeds)
    (hgw : e1.ipfsGatewayUrl = e2.ipfsGatewayUrl)
    (h1 : envPresent e1.crustChainEndpoint = true)
    (h2 : envPresent e2.crustChainEndpoint = true) :
    (∀ e : Env, configOk e = true → envPresent e.crustChainEndpoint = true)
    ∧ mainRun e1 fsState valid o catalog = mainRun e2 fsState valid o catalog
    ∧ ∀ res, mainRun e1 fsState valid o catalog = .ok res →
        res.chainEndpointUsed = hardcodedCrustEndpoint := by
  refine ⟨?_, ?_, ?_⟩
  · intro e he
    unfold configOk at he
    simp only [Bool.and_eq_true] at he
    exact he.1.2
  · have hcfg : configOk e1 = configOk e2 := by
      unfold configOk
      rw [hseeds, hgw, h1, h2]
    unfold mainRun
    rw [hseeds, hgw, hcfg]
  · intro res hres
    unfold mainRun at hres
    by_cases hc : configOk e1 = true
    · rw [if_pos hc] at hres
      rw [← Except.ok.inj hres]
    · rw [if_neg hc] at hres
      exact absurd hres (by simp)

/-- Witness for C10: two environments differing only in the chain
endpoint (both non-empty) produce identical runs. -/
theorem chain_endpoint_unused_witness :
    envAll.crustSeeds = envAlt.crustSeeds
    ∧ envAll.ipfsGatewayUrl = envAlt.ipfsGatewayUrl
    ∧ envPresent envAll.crustChainEndpoint = true
    ∧ envPresent envAlt.crustChainEndpoint = true
    ∧ mainRun envAll .missing validAll oGood catalogA
        = mainRun envAlt .missing validAll oGood catalogA :=
  ⟨rfl, rfl, by decide, by decide,
    (chain_endpoint_unused envAll envAlt .missing validAll oGood catalogA rfl rfl
      (by decide) (by decide)).2.1⟩

end CrustMigration
